import Mathlib

/-!
Shallow embedding of the geometry / stacking core of the react-flow fork:
the recursive edge-offset resolver (`getEdgeOffsets` in the EdgeRenderer
utils), the z-index calculators for nodes (`wrapNode.tsx`) and edges
(the EdgeRenderer `calculateZIndexes`), and the edge endpoint resolution
performed by the `Edge` wrapper component (`getSourceTargetNodes`,
`getHandle`, `getEdgePositions`).

JavaScript conventions are made explicit: `undefined`/`null` become
`Option`, JS truthiness of strings and numbers is modelled by dedicated
helpers (empty string and zero are falsy), `findIndex` returns `-1 : Int`
when no element matches, and DOM-measured container chrome (content
padding and summed chrome-element heights) is abstracted as an injected
measurement provider, which is the seam the browser plugs into.
-/

namespace ReactFlow

/-- A 2D position (`XYPosition` in types). Pixel quantities are rationals,
which model the exact JS arithmetic (sums, halving) used by this code. -/
structure XYPosition where
  x : ℚ
  y : ℚ
deriving DecidableEq

/-- Handle side (`Position` enum in types). -/
inductive Pos where
  | Top
  | Right
  | Bottom
  | Left
deriving DecidableEq

/-- A measured handle (`HandleElement`). A `width`/`height` of `0` behaves
like the JS-falsy `undefined` in `handle?.width || node.__rf.width`. -/
structure HandleElement where
  id : Option String
  position : Pos
  x : ℚ
  y : ℚ
  width : ℚ
  height : ℚ
deriving DecidableEq

/-- The per-kind handle lists of a node (`node.__rf.handleBounds`).
`none` models an `undefined` entry; `some []` is an empty (JS-truthy) array. -/
structure HandleBounds where
  source : Option (List HandleElement)
  target : Option (List HandleElement)
deriving DecidableEq

/-- The measured render state of a node (`node.__rf`): rendered position,
measured size (`none` = not yet measured, i.e. `null`), handle bounds. -/
structure NodeRF where
  position : XYPosition
  width : Option ℚ
  height : Option ℚ
  handleBounds : HandleBounds
deriving DecidableEq

/-- A node record: id, optional containing-scene id, measured state. -/
structure Node where
  id : String
  parentId : Option String
  rf : NodeRF
deriving DecidableEq

/-- An edge record: endpoint node ids and optional named handle ids. -/
structure Edge where
  id : String
  source : String
  target : String
  sourceHandle : Option String
  targetHandle : Option String
deriving DecidableEq

/-- `ConnectionMode` from types: `Strict` or `Loose`. An absent mode
behaves like any non-`Strict` value in the code, hence `Loose` here. -/
inductive ConnectionMode where
  | Strict
  | Loose
deriving DecidableEq

/-- JS truthiness of an optional string: `undefined`, `null` and the
empty string are falsy. -/
def truthyStr : Option String → Bool
  | none => false
  | some s => s ≠ ""

/-- JS truthiness of an optional number (`!node.__rf.width`):
`null`/`undefined` and `0` are falsy. -/
def truthyNum : Option ℚ → Bool
  | none => false
  | some q => q ≠ 0

/-- JS `a || b` for values that are either absent (falsy) or an array
(always truthy): keeps `a` when present, else `b`. -/
def jsOrOpt {α : Type} (a b : Option α) : Option α :=
  match a with
  | none => b
  | some x => some x

/-- JS `a || b` on numbers where `a` is `0`-or-absent-falsy. -/
def jsOrNum (a b : ℚ) : ℚ :=
  if a = 0 then b else a

/-- `edge.sourceHandle || null`: normalizes an absent or empty handle id
to `null`. -/
def strOrNull : Option String → Option String
  | none => none
  | some s => if s = "" then none else some s

/-- JS `Array.prototype.findIndex` result: the index as an `Int`,
`-1` when no element matches. The compared value is optional because the
edge z-index code compares a possibly-`undefined` `parentId` against each
scene id (`undefined` is equal to no string). -/
def jsFindIndex (l : List String) (x : Option String) : Int :=
  match l.findIdx? (fun s => x = some s) with
  | some i => (i : Int)
  | none => -1

/-- DOM-measured chrome of a scene container, keyed by the scene node id:
`padding` is the computed content padding of the relevant parent element,
`containedHeight` the summed computed heights of its children (the chrome
preceding the content, e.g. the header). A missing element measures as
zero on both (`convertFromPxToNum(null) = 0` in the source). -/
structure Chrome where
  padding : ℚ
  containedHeight : ℚ

/-- Fuel-indexed embedding of `getEdgeOffsets(nodes, nodeId)` from the
EdgeRenderer utils. The source recursion walks `nodeId` up its parent
chain with no cycle guard; `none` means the recursion did not complete
within `fuel` steps (for a cyclic parent chain this holds for every fuel,
mirroring the unbounded recursion of the source). The DOM measurement of
the parent container is supplied by the `chrome` provider. -/
def getEdgeOffsetsF (chrome : String → Chrome) (nodes : List Node) :
    Nat → String → Option (ℚ × ℚ)
  | 0, _ => none
  | fuel + 1, nodeId =>
    match nodes.find? (fun n => n.id = nodeId) with
    | none => some (0, 0)
    | some node =>
      match nodes.find? (fun n => some n.id = node.parentId) with
      | none => some (0, 0)
      | some parent =>
        let parentNodePadding := (chrome parent.id).padding
        let totalContainingHeight := (chrome parent.id).containedHeight
        let xOffset := parent.rf.position.x + parentNodePadding
        let yOffset := parent.rf.position.y + totalContainingHeight + parentNodePadding
        match getEdgeOffsetsF chrome nodes fuel parent.id with
        | none => none
        | some (px, py) => some (xOffset + px, yOffset + py)

/-- `calculateZIndexes` from `wrapNode.tsx` (the z-index of a node).
When the touched-scene list is `undefined` the fixed default `3` is
returned; otherwise the node id is looked up in the node list, its
containing scene is its `parentId` when present (`?? id` falls back to the
node id itself), and the result is
`10 + (rank found ? (length - rank) * 10 : 0) + (parentId truthy ? 5 : 0)`. -/
def calculateZIndexesNode (nodes : List Node) (id : String)
    (mostRecentlyTouchedSceneIds : Option (List String)) : Int :=
  match mostRecentlyTouchedSceneIds with
  | some tsl =>
    let parentId := (nodes.find? (fun n => n.id = id)).bind (fun n => n.parentId)
    let sceneNodeId := parentId.getD id
    let sceneIdIndex := jsFindIndex tsl (some sceneNodeId)
    let baseZIndexForNode : Int := 10
    let translated : Int :=
      if sceneIdIndex = -1 then 0 else ((tsl.length : Int) - sceneIdIndex) * 10
    let additionalZIndexForOverlayNodes : Int := if truthyStr parentId then 5 else 0
    baseZIndexForNode + translated + additionalZIndexForOverlayNodes
  | none => 3

/-- `calculateZIndexes` from the EdgeRenderer (the z-index of an edge).
An edge being drawn (a connection line should render but an endpoint id is
still null) gets the fixed sentinel `10000000`. Otherwise, when the
touched-scene list is defined, the `parentId` of every node matching
either endpoint id is ranked in the list (`-1` when absent, including
every parentless endpoint), the ranks are deduplicated (a JS `Set`; Lean
`dedup` keeps a different occurrence order, which leaves membership,
cardinality and minimum unchanged), `-1` is dropped when mixed with real
ranks, and the minimum rank is translated into
`10 + (rank = -1 ? 0 : (length - rank) * 10) + 5`.
`Math.min()` of an empty spread is `Infinity`, which propagates to a
`-Infinity` z-index in JS; that degenerate value (neither endpoint id
matched any node) is modelled as `none`. -/
def calculateZIndexesEdge (nodes : List Node)
    (mostRecentlyTouchedSceneIds : Option (List String))
    (edgeTargetNodeId edgeSourceNodeId : Option String)
    (shouldRenderConnectionLine : Bool) : Option Int :=
  let isDrawingEdge :=
    shouldRenderConnectionLine && !(truthyStr edgeSourceNodeId && truthyStr edgeTargetNodeId)
  if isDrawingEdge then some 10000000
  else
    match mostRecentlyTouchedSceneIds with
    | some tsl =>
      let baseZIndexForEdge : Int := 10
      let parentIds :=
        (nodes.filter (fun n =>
          some n.id = edgeTargetNodeId ∨ some n.id = edgeSourceNodeId)).map
          (fun n => n.parentId)
      let ranks := (parentIds.map (jsFindIndex tsl)).dedup
      let ranks2 := if (-1 : Int) ∈ ranks ∧ 1 < ranks.length then ranks.erase (-1) else ranks
      ranks2.min?.map (fun sceneIdIndex =>
        let translated : Int :=
          if sceneIdIndex = -1 then 0 else ((tsl.length : Int) - sceneIdIndex) * 10
        let additionalZIndexForEdge : Int := 5
        baseZIndexForEdge + translated + additionalZIndexForEdge)
    | none => some 3

/-- `getHandle(bounds, handleId)` from the EdgeRenderer utils: absent
bounds give `null`; a single-element bounds list or an absent/falsy handle
id select the first element (`bounds[0]`, `null` when the list is empty);
otherwise the named id is searched among the bounds. -/
def getHandle (bounds : Option (List HandleElement)) (handleId : Option String) :
    Option HandleElement :=
  match bounds with
  | none => none
  | some bs =>
    if bs.length = 1 ∨ truthyStr handleId = false then bs.head?
    else bs.find? (fun d => d.id = handleId)

/-- `getHandlePosition(position, node, handle)`: the handle-relative
anchor point before scene offsets. `handle?.width || node.__rf.width`
follows JS falsiness (zero/absent handle width falls back to the measured
node width); an unmeasured node width renders as `0` here, a path the edge
wrapper never reaches because it guards on both widths being truthy. -/
def getHandlePosition (position : Pos) (node : Node) (handle : Option HandleElement) :
    XYPosition :=
  let hx := (handle.map (fun h => h.x)).getD 0
  let hy := (handle.map (fun h => h.y)).getD 0
  let x := hx + node.rf.position.x
  let y := hy + node.rf.position.y
  let width := jsOrNum ((handle.map (fun h => h.width)).getD 0) (node.rf.width.getD 0)
  let height := jsOrNum ((handle.map (fun h => h.height)).getD 0) (node.rf.height.getD 0)
  match position with
  | Pos.Top => ⟨x + width / 2, y⟩
  | Pos.Right => ⟨x + width, y + height / 2⟩
  | Pos.Bottom => ⟨x + width / 2, y + height⟩
  | Pos.Left => ⟨x, y + height / 2⟩

/-- The four endpoint coordinates produced by `getEdgePositions`. -/
structure EdgePositions where
  sourceX : ℚ
  sourceY : ℚ
  targetX : ℚ
  targetY : ℚ
deriving DecidableEq

/-- `getEdgePositions`: both handle anchor points in node coordinates. -/
def getEdgePositions (sourceNode : Node) (sourceHandle : Option HandleElement)
    (sourcePosition : Pos) (targetNode : Node) (targetHandle : Option HandleElement)
    (targetPosition : Pos) : EdgePositions :=
  let sourceHandlePos := getHandlePosition sourcePosition sourceNode sourceHandle
  let targetHandlePos := getHandlePosition targetPosition targetNode targetHandle
  ⟨sourceHandlePos.x, sourceHandlePos.y, targetHandlePos.x, targetHandlePos.y⟩

/-- Result record of `getSourceTargetNodes`. -/
structure SourceTargetNode where
  sourceNode : Option Node
  targetNode : Option Node
deriving DecidableEq

/-- `getSourceTargetNodes(edge, nodes)`: a `reduce` over the node list
that assigns on every id match, so the last matching node wins. -/
def getSourceTargetNodes (edge : Edge) (nodes : List Node) : SourceTargetNode :=
  nodes.foldl
    (fun res node =>
      let res1 := if node.id = edge.source then { res with sourceNode := some node } else res
      if node.id = edge.target then { res1 with targetNode := some node } else res1)
    ⟨none, none⟩

/-- The geometry the `Edge` wrapper hands to the edge component. -/
structure ResolvedEdge where
  positions : EdgePositions
  sourcePosition : Pos
  targetPosition : Pos
deriving DecidableEq

/-- The endpoint-resolution portion of the `Edge` wrapper component
(lines up to `getEdgePositions`): look up both endpoint nodes (missing
node, unmeasured width, or unresolvable handle return `null`, i.e. the
edge is not renderable), pick the candidate target handles by connection
mode (`Strict` searches only target handles, any other mode falls back to
the source handles when the target entry is absent), resolve both handles
via `getHandle`, and compute the endpoint coordinates. -/
def resolveEdgeEndpoints (connectionMode : ConnectionMode) (nodes : List Node)
    (edge : Edge) : Option ResolvedEdge :=
  let sourceHandleId := strOrNull edge.sourceHandle
  let targetHandleId := strOrNull edge.targetHandle
  let stn := getSourceTargetNodes edge nodes
  match stn.sourceNode, stn.targetNode with
  | none, _ => none
  | some _, none => none
  | some sourceNode, some targetNode =>
    if truthyNum sourceNode.rf.width = false ∨ truthyNum targetNode.rf.width = false then
      none
    else
      let targetNodeBounds := targetNode.rf.handleBounds
      let targetNodeHandles :=
        if connectionMode = ConnectionMode.Strict then targetNodeBounds.target
        else jsOrOpt targetNodeBounds.target targetNodeBounds.source
      let sourceHandle := getHandle sourceNode.rf.handleBounds.source sourceHandleId
      let targetHandle := getHandle targetNodeHandles targetHandleId
      let sourcePosition := (sourceHandle.map (fun h => h.position)).getD Pos.Bottom
      let targetPosition := (targetHandle.map (fun h => h.position)).getD Pos.Top
      match sourceHandle, targetHandle with
      | none, _ => none
      | some _, none => none
      | some _, some _ =>
        some ⟨getEdgePositions sourceNode sourceHandle sourcePosition
                targetNode targetHandle targetPosition,
              sourcePosition, targetPosition⟩

/-! ## Concrete fixtures used by witnesses and counterexamples -/

/-- Render state with no measurements at all. -/
def rfEmpty : NodeRF := ⟨⟨0, 0⟩, none, none, ⟨none, none⟩⟩

/-- A measurement provider with no measured chrome anywhere. -/
def chromeZero : String → Chrome := fun _ => ⟨0, 0⟩

def idA : String := "A"

def idB : String := "B"

def idS : String := "S"

def idS1 : String := "S1"

def idS2 : String := "S2"

def idS3 : String := "S3"

def idN1 : String := "N1"

def idNa : String := "n1"

def idNb : String := "n2"

def idNc : String := "n3"

def idH1 : String := "h1"

def idH2 : String := "h2"

def idT1 : String := "t1"

def idE1 : String := "e1"

/-- Two nodes whose `parentId` containment chain is the cycle A → B → A. -/
def cycleNodes : List Node := [⟨idA, some idB, rfEmpty⟩, ⟨idB, some idA, rfEmpty⟩]

/-- Chrome measurements of the concrete telescoping scenario: scene `S1`
measures content padding 10 and header height 20. -/
def chromeScene1 : String → Chrome := fun s => if s = idS1 then ⟨10, 20⟩ else ⟨0, 0⟩

/-- Container `S1` at rendered position (0,0) with child `N1` at local
position (5,5). -/
def scenario1Nodes : List Node :=
  [⟨idS1, none, ⟨⟨0, 0⟩, some 100, some 100, ⟨none, none⟩⟩⟩,
   ⟨idN1, some idS1, ⟨⟨5, 5⟩, some 10, some 10, ⟨none, none⟩⟩⟩]

/-- Three scenes with one plain overlay node each. -/
def zScenarioNodes : List Node :=
  [⟨idS1, none, rfEmpty⟩, ⟨idS2, none, rfEmpty⟩, ⟨idS3, none, rfEmpty⟩,
   ⟨idNa, some idS1, rfEmpty⟩, ⟨idNb, some idS2, rfEmpty⟩, ⟨idNc, some idS3, rfEmpty⟩]

/-- An edge scenario: top-level node `A` (itself a touchable scene) and
node `B` contained in the untouched scene `S`. -/
def mixedEdgeNodes : List Node := [⟨idA, none, rfEmpty⟩, ⟨idB, some idS, rfEmpty⟩]

/-- An edge scenario with both endpoints in (distinct) touched scenes. -/
def twoSceneEdgeNodes : List Node := [⟨idA, some idS1, rfEmpty⟩, ⟨idB, some idS2, rfEmpty⟩]

/-- A duplicate-free touched-scene list of one million entries: the scene
id of interest first, then 999999 pairwise distinct filler ids. -/
def wideTouchedList : List String :=
  idS :: (List.range 999999).map (fun n => String.mk (List.replicate n 'a'))

/-- A single overlay node contained in scene `S`. -/
def overlayNodeList : List Node := [⟨idN1, some idS, rfEmpty⟩]

/-- A handle declared with id `h1` on the bottom side. -/
def handleH1 : HandleElement := ⟨some idH1, Pos.Bottom, 0, 0, 0, 0⟩

/-- A handle declared with id `t1` on the top side. -/
def handleT1 : HandleElement := ⟨some idT1, Pos.Top, 0, 0, 0, 0⟩

/-- Source node `A` declaring exactly one source handle (`h1`), target
node `B` declaring one target handle (`t1`); both measured. -/
def oneHandleNodes : List Node :=
  [⟨idA, none, ⟨⟨0, 0⟩, some 10, some 10, ⟨some [handleH1], none⟩⟩⟩,
   ⟨idB, none, ⟨⟨50, 50⟩, some 10, some 10, ⟨none, some [handleT1]⟩⟩⟩]

/-- An edge naming source handle `h2`, which `A` does not declare. -/
def namedMissEdge : Edge := ⟨idE1, idA, idB, some idH2, none⟩

def idH3 : String := "h3"

/-- A second declared source handle. -/
def handleH3 : HandleElement := ⟨some idH3, Pos.Bottom, 0, 0, 0, 0⟩

/-- Source node `A` declaring two source handles (`h1`, `h3`), target
node `B` declaring one target handle; both measured. -/
def twoHandleNodes : List Node :=
  [⟨idA, none, ⟨⟨0, 0⟩, some 10, some 10, ⟨some [handleH1, handleH3], none⟩⟩⟩,
   ⟨idB, none, ⟨⟨50, 50⟩, some 10, some 10, ⟨none, some [handleT1]⟩⟩⟩]

/-- Target node `B` declares only source-type handles. -/
def sourceOnlyNodes : List Node :=
  [⟨idA, none, ⟨⟨0, 0⟩, some 10, some 10, ⟨some [handleH1], none⟩⟩⟩,
   ⟨idB, none, ⟨⟨50, 50⟩, some 10, some 10, ⟨some [handleT1], none⟩⟩⟩]

/-- An edge with no named handles. -/
def plainEdge : Edge := ⟨idE1, idA, idB, none, none⟩

/-- A node list containing only the target `B` of `plainEdge`
(the source id `A` is dangling, e.g. after a node deletion). -/
def lonelyTargetNodes : List Node :=
  [⟨idB, none, ⟨⟨0, 0⟩, some 10, some 10, ⟨none, some [handleT1]⟩⟩⟩]

/-! ## Helper lemmas -/

/-- `min?` on integer lists is characterized by membership plus lower-boundness. -/
theorem intMin?_eq_some {l : List Int} {m : Int} :
    l.min? = some m ↔ m ∈ l ∧ ∀ b ∈ l, m ≤ b :=
  haveI : Std.Antisymm (fun x1 x2 : Int => x1 ≤ x2) := ⟨@fun _ _ h1 h2 => le_antisymm h1 h2⟩
  List.min?_eq_some_iff (fun a => le_refl a) (fun a b => min_choice a b) (fun _ _ _ => le_min_iff)

/-- A duplicate-free list whose members all equal `a` and that contains `a`
is the singleton `[a]`. -/
theorem nodup_eq_singleton {α : Type} {l : List α} {a : α}
    (hnd : l.Nodup) (hmem : a ∈ l) (hall : ∀ x ∈ l, x = a) : l = [a] := by
  cases l with
  | nil => cases hmem
  | cons b t =>
    have hb : b = a := hall b (List.mem_cons_self b t)
    cases t with
    | nil => rw [hb]
    | cons c t2 =>
      have hc : c = a := hall c (List.mem_cons_of_mem b (List.mem_cons_self c t2))
      exact absurd (hb.trans hc.symm ▸ List.mem_cons_self c t2)
        (List.nodup_cons.mp hnd).1

/-- A list with two distinct members has length above one. -/
theorem one_lt_length_of_two_mem {α : Type} {l : List α} {a b : α}
    (ha : a ∈ l) (hb : b ∈ l) (hab : a ≠ b) : 1 < l.length := by
  cases l with
  | nil => cases ha
  | cons x t =>
    cases t with
    | nil =>
      have ha1 : a = x := List.mem_singleton.mp ha
      have hb1 : b = x := List.mem_singleton.mp hb
      exact absurd (ha1.trans hb1.symm) hab
    | cons y t2 => simp [List.length_cons]

/-- More fuel never changes a completed `getEdgeOffsetsF` run. -/
theorem getEdgeOffsetsF_mono (chrome : String → Chrome) (nodes : List Node) :
    ∀ {f g : ℕ}, f ≤ g → ∀ {id : String} {r : ℚ × ℚ},
      getEdgeOffsetsF chrome nodes f id = some r →
      getEdgeOffsetsF chrome nodes g id = some r := by
  intro f
  induction f with
  | zero => intro g _ id r hr; exact absurd hr (by simp [getEdgeOffsetsF])
  | succ f ih =>
    intro g hfg id r hr
    obtain ⟨g2, rfl⟩ : ∃ g2, g = g2 + 1 :=
      ⟨g - 1, by omega⟩
    have hfg2 : f ≤ g2 := by omega
    rw [getEdgeOffsetsF] at hr ⊢
    split at hr
    · rename_i hfind
      exact hr
    · rename_i node hfind
      split at hr
      · rename_i hpar
        exact hr
      · rename_i parent hpar
        split at hr
        · exact absurd hr (by simp)
        · rename_i px py hrec
          simp only [hfind, hpar, ih hfg2 hrec]
          exact hr

/-! ## Claim theorems: offset resolution -/

/-- C1: for a node `n` with parent `p` (both resolving in the node list),
whenever the parent's own offset resolution completes (which the acyclic
containment chain guarantees), the node's offset at any sufficient fuel is
the parent's offset plus the parent's local position plus the parent's
chrome offset — measured content padding on both axes and measured header
height (the summed chrome heights) on the vertical axis only. Applying
the equation at each level telescopes the sum across arbitrary nesting
depth, and the value does not depend on the fuel. -/
theorem resolveOffset_parent_step
    (chrome : String → Chrome) (nodes : List Node) (nodeId : String)
    (node parent : Node) (f : ℕ) (po : ℚ × ℚ)
    (hn : nodes.find? (fun n => n.id = nodeId) = some node)
    (hp : nodes.find? (fun n => some n.id = node.parentId) = some parent)
    (hpo : getEdgeOffsetsF chrome nodes f parent.id = some po) :
    ∀ g, f < g →
      getEdgeOffsetsF chrome nodes g nodeId =
        some (po.1 + parent.rf.position.x + (chrome parent.id).padding,
              po.2 + parent.rf.position.y +
                ((chrome parent.id).padding + (chrome parent.id).containedHeight)) := by
  intro g hg
  obtain ⟨px, py⟩ := po
  have key : getEdgeOffsetsF chrome nodes (f + 1) nodeId =
      some (parent.rf.position.x + (chrome parent.id).padding + px,
            parent.rf.position.y + (chrome parent.id).containedHeight +
              (chrome parent.id).padding + py) := by
    rw [getEdgeOffsetsF]
    simp only [hn, hp, hpo]
  have hmono := getEdgeOffsetsF_mono chrome nodes (show f + 1 ≤ g by omega) key
  rw [hmono]
  simp only [Option.some.injEq, Prod.mk.injEq]
  constructor <;> ring

/-- C1 witness: in the concrete scenario, `N1` contained in `S1`
(position (0,0), padding 10, header 20) resolves from `S1` offset (0,0)
to (0 + 0 + 10, 0 + 0 + (10 + 20)). -/
theorem resolveOffset_parent_step_witness :
    getEdgeOffsetsF chromeScene1 scenario1Nodes 2 idN1 =
      some ((0 : ℚ) + 0 + 10, (0 : ℚ) + 0 + (10 + 20)) := by
  have hn : scenario1Nodes.find? (fun n => n.id = idN1) =
      some ⟨idN1, some idS1, ⟨⟨5, 5⟩, some 10, some 10, ⟨none, none⟩⟩⟩ := by decide
  have hp : scenario1Nodes.find?
        (fun n => some n.id =
          (⟨idN1, some idS1, ⟨⟨5, 5⟩, some 10, some 10, ⟨none, none⟩⟩⟩ : Node).parentId) =
      some ⟨idS1, none, ⟨⟨0, 0⟩, some 100, some 100, ⟨none, none⟩⟩⟩ := by decide
  have hpo : getEdgeOffsetsF chromeScene1 scenario1Nodes 1
      (⟨idS1, none, ⟨⟨0, 0⟩, some 100, some 100, ⟨none, none⟩⟩⟩ : Node).id =
      some ((0 : ℚ), (0 : ℚ)) := by decide
  have h := resolveOffset_parent_step chromeScene1 scenario1Nodes idN1 _ _ 1
    ((0 : ℚ), (0 : ℚ)) hn hp hpo 2 (by omega)
  simpa [chromeScene1, idS1] using h

/-- C2: the cyclic containment chain A → B → A makes `getEdgeOffsets`
recurse forever — the run completes at no fuel bound whatsoever, for any
chrome measurements, instead of being cut off by a cycle guard that would
return a zero offset. (The spec requires a bounded-depth or visited-set
guard; the source has none.) -/
theorem getEdgeOffsets_cycle_never_completes :
    ∀ (chrome : String → Chrome) (f : ℕ),
      getEdgeOffsetsF chrome cycleNodes f idA = none ∧
      getEdgeOffsetsF chrome cycleNodes f idB = none := by
  intro chrome f
  induction f with
  | zero => exact ⟨rfl, rfl⟩
  | succ f ih =>
    have hA : cycleNodes.find? (fun n => n.id = idA) = some ⟨idA, some idB, rfEmpty⟩ := by
      decide
    have hB : cycleNodes.find? (fun n => n.id = idB) = some ⟨idB, some idA, rfEmpty⟩ := by
      decide
    have hpA : cycleNodes.find?
        (fun n => some n.id = (⟨idA, some idB, rfEmpty⟩ : Node).parentId) =
        some ⟨idB, some idA, rfEmpty⟩ := by decide
    have hpB : cycleNodes.find?
        (fun n => some n.id = (⟨idB, some idA, rfEmpty⟩ : Node).parentId) =
        some ⟨idA, some idB, rfEmpty⟩ := by decide
    constructor
    · rw [getEdgeOffsetsF]
      simp only [hA, hpA]
      simp only [show (⟨idB, some idA, rfEmpty⟩ : Node).id = idB from rfl, ih.2]
    · rw [getEdgeOffsetsF]
      simp only [hB, hpB]
      simp only [show (⟨idA, some idB, rfEmpty⟩ : Node).id = idA from rfl, ih.1]

/-- C8 counterexample: in the concrete scenario (container `S1` at (0,0),
padding 10, header height 20, child `N1` at local position (5,5)),
`getEdgeOffsets` returns (10, 30), not the claimed (15, 35): the child's
own local position (5,5) is not part of the resolved offset. -/
theorem scenario1_offset_counterexample :
    getEdgeOffsetsF chromeScene1 scenario1Nodes 2 idN1 = some (10, 30) ∧
    getEdgeOffsetsF chromeScene1 scenario1Nodes 2 idN1 ≠ some (15, 35) := by
  constructor
  · simp [getEdgeOffsetsF, scenario1Nodes, chromeScene1, idS1, idN1]
    try norm_num
  · simp [getEdgeOffsetsF, scenario1Nodes, chromeScene1, idS1, idN1]
    try norm_num

/-- C8 amended: the scenario resolves to (10, 30) at every sufficient
fuel; the claimed (15, 35) additionally contains `N1`'s own local
position, which the resolver leaves to the endpoint geometry. -/
theorem scenario1_offset_amended :
    ∀ f : ℕ, getEdgeOffsetsF chromeScene1 scenario1Nodes (f + 2) idN1 = some (10, 30) := by
  intro f
  have base : getEdgeOffsetsF chromeScene1 scenario1Nodes 2 idN1 = some (10, 30) := by
    simp [getEdgeOffsetsF, scenario1Nodes, chromeScene1, idS1, idN1]
    try norm_num
  exact getEdgeOffsetsF_mono chromeScene1 scenario1Nodes (by omega) base

/-- C9: a node id absent from the node list resolves to offset (0,0)
with no error — the same value as an existing top-level (parentless)
node, so the resolved offset cannot distinguish the two. -/
theorem missing_node_offset_zero
    (chrome : String → Chrome) (nodes : List Node) (nodeId rootId : String)
    (rootNode : Node) (f : ℕ)
    (hmiss : ∀ n ∈ nodes, ¬ n.id = nodeId)
    (hroot : nodes.find? (fun n => n.id = rootId) = some rootNode)
    (hnp : rootNode.parentId = none) :
    getEdgeOffsetsF chrome nodes (f + 1) nodeId = some (0, 0) ∧
    getEdgeOffsetsF chrome nodes (f + 1) rootId = some (0, 0) := by
  constructor
  · rw [getEdgeOffsetsF]
    have hnone : nodes.find? (fun n => n.id = nodeId) = none :=
      List.find?_eq_none.mpr (by simpa using hmiss)
    simp only [hnone]
  · rw [getEdgeOffsetsF]
    have hnone : nodes.find? (fun n => some n.id = rootNode.parentId) = none := by
      rw [hnp]
      exact List.find?_eq_none.mpr (by simp)
    simp only [hroot, hnone]

/-- C9 witness: with only node `B` present, the dangling id `A` and the
root node `B` both resolve to (0,0). -/
theorem missing_node_offset_zero_witness :
    getEdgeOffsetsF chromeZero lonelyTargetNodes 1 idA = some (0, 0) ∧
    getEdgeOffsetsF chromeZero lonelyTargetNodes 1 idB = some (0, 0) := by
  have h := missing_node_offset_zero chromeZero lonelyTargetNodes idA idB
    ⟨idB, none, ⟨⟨0, 0⟩, some 10, some 10, ⟨none, some [handleT1]⟩⟩⟩ 0
    (by decide) (by decide) (by decide)
  exact h

/-! ## Claim theorems: node z-index -/

/-- C3: for a node present in the node list (with a well-formed, nonempty
parent id when one exists), the node z-index with a defined touched-scene
list is `10 + ordinal + overlay bonus`, where the ordinal is
`(N - r) * 10` when the containing scene (the parent id when present,
else the node's own id) has rank `r` in the list of length `N` and `0`
when absent, and the bonus is `5` exactly when the node has a parent;
with an undefined touched-scene list the result is the default `3`. -/
theorem zIndexForNode_formula
    (nodes : List Node) (id : String) (tsl : List String) (node : Node)
    (hn : nodes.find? (fun n => n.id = id) = some node)
    (hwf : ∀ p ∈ node.parentId, p ≠ "") :
    calculateZIndexesNode nodes id none = 3 ∧
    calculateZIndexesNode nodes id (some tsl) =
      10 +
      (match tsl.findIdx? (fun s => s = node.parentId.getD id) with
       | some r => ((tsl.length : Int) - (r : Int)) * 10
       | none => 0) +
      (if node.parentId.isSome then 5 else 0) := by
  refine ⟨rfl, ?_⟩
  rw [calculateZIndexesNode]
  simp only [hn, Option.some_bind]
  have hpred : (fun s : String => decide (some (node.parentId.getD id) = some s)) =
      (fun s : String => decide (s = node.parentId.getD id)) := by
    funext s
    exact decide_eq_decide.mpr (by constructor <;> (intro h; simp_all))
  rw [jsFindIndex, hpred]
  have hbonus : (if truthyStr node.parentId then (5 : Int) else 0) =
      (if node.parentId.isSome then (5 : Int) else 0) := by
    cases hp : node.parentId with
    | none => rfl
    | some p =>
      have : p ≠ "" := hwf p (by rw [hp]; exact rfl)
      simp [truthyStr, this]
  cases hidx : tsl.findIdx? (fun s => s = node.parentId.getD id) with
  | none => simp [hbonus]
  | some r =>
    have : ¬ ((r : Int) = -1) := by omega
    simp [this, hbonus]

/-- C3 witness: with touched list `[S2, S1]`, the overlay node `n2`
(contained in `S2`) gets `10 + (2 - 0) * 10 + 5 = 35`, and with an
undefined list it gets `3`. -/
theorem zIndexForNode_formula_witness :
    calculateZIndexesNode zScenarioNodes idNb none = 3 ∧
    calculateZIndexesNode zScenarioNodes idNb (some [idS2, idS1]) = 35 := by
  have h := zIndexForNode_formula zScenarioNodes idNb [idS2, idS1]
    ⟨idNb, some idS2, rfEmpty⟩ (by decide) (by decide)
  refine ⟨h.1, ?_⟩
  rw [h.2]
  decide

/-! ## Claim theorems: edge z-index rank selection -/

/-- `jsFindIndex` against an optional id is `-1` exactly when the id is
absent or unranked, and the (cast) index otherwise. -/
theorem jsFindIndex_eq_rank (tsl : List String) (p : Option String) :
    jsFindIndex tsl p =
      match p.bind (fun q => tsl.findIdx? (fun s => s = q)) with
      | some r => (r : Int)
      | none => -1 := by
  cases p with
  | none =>
    have hfalse : tsl.findIdx? (fun _ : String => false) = none := by
      simp [List.findIdx?_eq_none_iff]
    simp [jsFindIndex, hfalse]
  | some q =>
    have hpred : (fun s : String => ((some q = some s : Bool))) =
        (fun s : String => (s = q : Bool)) := by
      funext s
      exact decide_eq_decide.mpr (by constructor <;> (intro h; simp_all))
    rw [jsFindIndex, hpred]
    simp only [Option.some_bind]

/-- The JS `Set` / `delete(-1)` / `Math.min` pipeline of the edge z-index
code, for a rank list whose members are exactly `r1` and `r2`: both
untouched gives `-1`, a single touched rank wins over `-1`, and two
touched ranks give their minimum. -/
theorem minPipeline (rs : List Int) (r1 r2 : Int)
    (hmem : ∀ x, x ∈ rs ↔ x = r1 ∨ x = r2) :
    (if (-1 : Int) ∈ rs.dedup ∧ 1 < rs.dedup.length then rs.dedup.erase (-1)
     else rs.dedup).min? =
      some (if r1 = -1 ∧ r2 = -1 then -1 else if r1 = -1 then r2 else if r2 = -1 then r1
            else min r1 r2) := by
  have dmem : ∀ x, x ∈ rs.dedup ↔ x = r1 ∨ x = r2 := by
    intro x
    rw [List.mem_dedup]
    exact hmem x
  have dnd : rs.dedup.Nodup := List.nodup_dedup rs
  have hr1d : r1 ∈ rs.dedup := (dmem r1).mpr (Or.inl rfl)
  have hr2d : r2 ∈ rs.dedup := (dmem r2).mpr (Or.inr rfl)
  by_cases heq : r1 = r2
  · subst heq
    have hsing : rs.dedup = [r1] :=
      nodup_eq_singleton dnd hr1d (fun x hx => ((dmem x).mp hx).elim id id)
    rw [hsing]
    by_cases hneg : r1 = -1
    · subst hneg
      simp [List.min?]
    · simp [List.min?, hneg]
  · have hlen : 1 < rs.dedup.length := one_lt_length_of_two_mem hr1d hr2d heq
    by_cases hneg : (-1 : Int) ∈ rs.dedup
    · have hcond : (-1 : Int) ∈ rs.dedup ∧ 1 < rs.dedup.length := ⟨hneg, hlen⟩
      rw [if_pos hcond]
      have hor : r1 = -1 ∨ r2 = -1 := by
        rcases (dmem (-1)).mp hneg with h | h
        · exact Or.inl h.symm
        · exact Or.inr h.symm
      have emem : ∀ x, x ∈ rs.dedup.erase (-1) ↔ x ≠ -1 ∧ x ∈ rs.dedup := by
        intro x
        exact List.Nodup.mem_erase_iff dnd
      have endup : (rs.dedup.erase (-1)).Nodup := List.Nodup.erase (-1) dnd
      rcases hor with h1 | h2
      · have hr2ne : r2 ≠ -1 := fun hc => heq (h1.trans hc.symm)
        have hr2e : r2 ∈ rs.dedup.erase (-1) := (emem r2).mpr ⟨hr2ne, hr2d⟩
        have hall : ∀ x ∈ rs.dedup.erase (-1), x = r2 := by
          intro x hx
          rcases (dmem x).mp ((emem x).mp hx).2 with h | h
          · exact absurd (h.trans h1) ((emem x).mp hx).1
          · exact h
        rw [nodup_eq_singleton endup hr2e hall]
        simp [List.min?, h1, hr2ne]
      · have hr1ne : r1 ≠ -1 := fun hc => heq (hc.trans h2.symm)
        have hr1e : r1 ∈ rs.dedup.erase (-1) := (emem r1).mpr ⟨hr1ne, hr1d⟩
        have hall : ∀ x ∈ rs.dedup.erase (-1), x = r1 := by
          intro x hx
          rcases (dmem x).mp ((emem x).mp hx).2 with h | h
          · exact h
          · exact absurd (h.trans h2) ((emem x).mp hx).1
        rw [nodup_eq_singleton endup hr1e hall]
        simp [List.min?, h2, hr1ne]
    · have hcond : ¬ ((-1 : Int) ∈ rs.dedup ∧ 1 < rs.dedup.length) := by
        intro h
        exact hneg h.1
      rw [if_neg hcond]
      have hr1ne : r1 ≠ -1 := fun hc => hneg (hc ▸ hr1d)
      have hr2ne : r2 ≠ -1 := fun hc => hneg (hc ▸ hr2d)
      have hminmem : min r1 r2 ∈ rs.dedup := by
        rcases min_choice r1 r2 with h | h
        · rw [h]; exact hr1d
        · rw [h]; exact hr2d
      have hminle : ∀ x ∈ rs.dedup, min r1 r2 ≤ x := by
        intro x hx
        rcases (dmem x).mp hx with h | h
        · rw [h]; exact min_le_left r1 r2
        · rw [h]; exact min_le_right r1 r2
      rw [intMin?_eq_some.mpr ⟨hminmem, hminle⟩]
      simp [hr1ne, hr2ne]

/-- C4 counterexample: edge between top-level node `A` and node `B`
contained in untouched scene `S`, with touched list `[A]`. The claim's
rank rule ("a node's own id if top-level") would rank `A` at 0 and yield
`10 + (1 - 0) * 10 + 5 = 25`; the code only consults each endpoint's
`parentId`, treats the top-level endpoint as untouched, and yields
`10 + 0 + 5 = 15`. -/
theorem zIndexForEdge_topLevel_counterexample :
    calculateZIndexesEdge mixedEdgeNodes (some [idA]) (some idB) (some idA) false = some 15 ∧
    calculateZIndexesEdge mixedEdgeNodes (some [idA]) (some idB) (some idA) false ≠
      some 25 := by
  constructor
  · decide
  · decide

/-- C4 amended: for an edge whose endpoints both resolve (so no
connection is being drawn), with a defined touched-scene list the z-index
is `10 + ordinal + 5`, where the rank fed to the ordinal
`(N - r) * 10` is chosen from the endpoints' direct `parentId` ranks — a
top-level endpoint (no `parentId`) counts as untouched rather than
contributing its own id — by taking the minimum when both are touched,
preferring the touched rank when exactly one is untouched, and yielding
ordinal `0` when both are untouched; with no touched-scene list supplied
the result is the default `3`. -/
theorem zIndexForEdge_parentRank
    (nodes : List Node) (tsl : List String) (tgt src : String) (a b : Node) (sr : Bool)
    (hnodup : (nodes.map (fun n => n.id)).Nodup)
    (ha : nodes.find? (fun n => n.id = src) = some a)
    (hb : nodes.find? (fun n => n.id = tgt) = some b)
    (hsrc : src ≠ "") (htgt : tgt ≠ "") :
    calculateZIndexesEdge nodes none (some tgt) (some src) sr = some 3 ∧
    calculateZIndexesEdge nodes (some tsl) (some tgt) (some src) sr =
      some (10 +
        (match a.parentId.bind (fun p => tsl.findIdx? (fun s => s = p)),
               b.parentId.bind (fun p => tsl.findIdx? (fun s => s = p)) with
         | none, none => 0
         | some r, none => ((tsl.length : Int) - (r : Int)) * 10
         | none, some r => ((tsl.length : Int) - (r : Int)) * 10
         | some r1, some r2 => ((tsl.length : Int) - ((min r1 r2 : ℕ) : Int)) * 10) + 5) := by
  have haid : a.id = src := by
    have h := List.find?_some ha
    simpa using h
  have hbid : b.id = tgt := by
    have h := List.find?_some hb
    simpa using h
  have hamem : a ∈ nodes := List.mem_of_find?_eq_some ha
  have hbmem : b ∈ nodes := List.mem_of_find?_eq_some hb
  have hinj := List.inj_on_of_nodup_map hnodup
  have hdraw : (sr && !(truthyStr (some src) && truthyStr (some tgt))) = false := by
    simp [truthyStr, hsrc, htgt]
  constructor
  · rw [calculateZIndexesEdge]
    simp only [hdraw, Bool.false_eq_true, if_false]
  · have hfmem : ∀ n, n ∈ nodes.filter
        (fun n => decide (some n.id = some tgt ∨ some n.id = some src)) ↔
        n = b ∨ n = a := by
      intro n
      rw [List.mem_filter]
      constructor
      · rintro ⟨hn, hp⟩
        rcases of_decide_eq_true hp with h | h
        · exact Or.inl (hinj hn hbmem (by rw [Option.some_inj] at h; rw [h, hbid]))
        · exact Or.inr (hinj hn hamem (by rw [Option.some_inj] at h; rw [h, haid]))
      · rintro (rfl | rfl)
        · exact ⟨hbmem, decide_eq_true (Or.inl (by rw [hbid]))⟩
        · exact ⟨hamem, decide_eq_true (Or.inr (by rw [haid]))⟩
    have hrsmem : ∀ x : Int,
        x ∈ ((nodes.filter
          (fun n => decide (some n.id = some tgt ∨ some n.id = some src))).map
          (fun n => n.parentId)).map (jsFindIndex tsl) ↔
        x = jsFindIndex tsl b.parentId ∨ x = jsFindIndex tsl a.parentId := by
      intro x
      simp only [List.mem_map]
      constructor
      · rintro ⟨p, ⟨n, hn, rfl⟩, rfl⟩
        rcases (hfmem n).mp hn with rfl | rfl
        · exact Or.inl rfl
        · exact Or.inr rfl
      · rintro (rfl | rfl)
        · exact ⟨b.parentId, ⟨b, (hfmem b).mpr (Or.inl rfl), rfl⟩, rfl⟩
        · exact ⟨a.parentId, ⟨a, (hfmem a).mpr (Or.inr rfl), rfl⟩, rfl⟩
    have hpipe := minPipeline _ _ _ hrsmem
    rw [calculateZIndexesEdge]
    simp only [hdraw, Bool.false_eq_true, if_false]
    rw [hpipe]
    rw [jsFindIndex_eq_rank tsl a.parentId, jsFindIndex_eq_rank tsl b.parentId]
    cases hra : a.parentId.bind (fun p => tsl.findIdx? (fun s => s = p)) with
    | none =>
      cases hrb : b.parentId.bind (fun p => tsl.findIdx? (fun s => s = p)) with
      | none => simp
      | some rb =>
        have hne : ¬ ((rb : Int) = -1) := by omega
        simp [hne]
    | some ra =>
      cases hrb : b.parentId.bind (fun p => tsl.findIdx? (fun s => s = p)) with
      | none =>
        have hne : ¬ ((ra : Int) = -1) := by omega
        simp [hne]
      | some rb =>
        have hnea : ¬ ((ra : Int) = -1) := by omega
        have hneb : ¬ ((rb : Int) = -1) := by omega
        have hmin : ¬ (min (rb : Int) (ra : Int) = -1) := by
          rcases min_choice (rb : Int) (ra : Int) with h | h <;> omega
        have hcast : ((min ra rb : ℕ) : Int) = min (rb : Int) (ra : Int) := by
          rw [Nat.cast_min]
          exact min_comm _ _
        simp [hnea, hneb, hmin, hcast]

/-- C4 witness: edge between `A` (in scene `S1`) and `B` (in scene `S2`)
with touched list `[S2, S1]`: both ranks exist, the minimum is 0, so the
z-index is `10 + (2 - 0) * 10 + 5 = 35`; with no list it is 3. -/
theorem zIndexForEdge_parentRank_witness :
    calculateZIndexesEdge twoSceneEdgeNodes none (some idB) (some idA) false = some 3 ∧
    calculateZIndexesEdge twoSceneEdgeNodes (some [idS2, idS1]) (some idB) (some idA) false =
      some 35 := by
  have h := zIndexForEdge_parentRank twoSceneEdgeNodes [idS2, idS1] idB idA
    ⟨idA, some idS1, rfEmpty⟩ ⟨idB, some idS2, rfEmpty⟩ false
    (by decide) (by decide) (by decide) (by decide) (by decide)
  refine ⟨h.1, ?_⟩
  rw [h.2]
  decide

/-! ## Claim theorems: the drawing-edge sentinel -/

/-- A `findIndex` result is never below `-1`. -/
theorem neg_one_le_jsFindIndex (l : List String) (x : Option String) :
    -1 ≤ jsFindIndex l x := by
  rw [jsFindIndex]
  cases l.findIdx? (fun s => x = some s) with
  | none =>
    show (-1 : Int) ≤ -1
    omega
  | some i =>
    show (-1 : Int) ≤ (i : Int)
    have : (0 : Int) ≤ (i : Int) := Int.natCast_nonneg i
    omega

/-- The node z-index formula stays below the drawing sentinel whenever
the touched-scene list has at most 999998 entries. -/
theorem zIndexForNode_lt_sentinel (nodes : List Node) (id : String) (tsl : List String)
    (hN : tsl.length ≤ 999998) :
    calculateZIndexesNode nodes id (some tsl) < 10000000 := by
  simp only [calculateZIndexesNode]
  set p := (nodes.find? (fun n => n.id = id)).bind (fun n => n.parentId) with hp
  set j := jsFindIndex tsl (some (p.getD id)) with hj
  have hge : -1 ≤ j := hj ▸ neg_one_le_jsFindIndex tsl (some (p.getD id))
  by_cases hb : truthyStr p <;> by_cases hcase : j = -1 <;>
    simp only [hb, hcase, if_true, if_pos, Bool.false_eq_true, if_false, if_neg] <;>
    omega

/-- A completed (not-being-drawn) edge z-index stays below the drawing
sentinel whenever the touched-scene list has at most 999998 entries. -/
theorem zIndexForEdge_lt_sentinel (nodes : List Node) (tsl : List String)
    (tgt src : Option String) (sr : Bool) (z : Int)
    (hz : calculateZIndexesEdge nodes (some tsl) tgt src sr = some z)
    (hnd : (sr && !(truthyStr src && truthyStr tgt)) = false)
    (hN : tsl.length ≤ 999998) :
    z < 10000000 := by
  rw [calculateZIndexesEdge] at hz
  simp only [hnd, Bool.false_eq_true, if_false] at hz
  obtain ⟨m, hm, hfz⟩ := Option.map_eq_some'.mp hz
  have hmem : m ∈ ((nodes.filter
      (fun n => decide (some n.id = tgt ∨ some n.id = src))).map
      (fun n => n.parentId)).map (jsFindIndex tsl) := by
    have hm2 := (intMin?_eq_some.mp hm).1
    by_cases hc : (-1 : Int) ∈ (((nodes.filter
        (fun n => decide (some n.id = tgt ∨ some n.id = src))).map
        (fun n => n.parentId)).map (jsFindIndex tsl)).dedup ∧
        1 < (((nodes.filter
        (fun n => decide (some n.id = tgt ∨ some n.id = src))).map
        (fun n => n.parentId)).map (jsFindIndex tsl)).dedup.length
    · rw [if_pos hc] at hm2
      exact List.mem_dedup.mp (List.mem_of_mem_erase hm2)
    · rw [if_neg hc] at hm2
      exact List.mem_dedup.mp hm2
  obtain ⟨p, _, hp⟩ := List.mem_map.mp hmem
  have hge : -1 ≤ m := by
    rw [← hp]
    exact neg_one_le_jsFindIndex tsl p
  subst hfz
  show (10 + if m = -1 then 0 else ((tsl.length : Int) - m) * 10) + 5 < 10000000
  by_cases hcase : m = -1
  · rw [if_pos hcase]
    omega
  · rw [if_neg hcase]
    omega

/-- C5 counterexample: the drawing-edge value is the fixed constant
`10000000`, not a maximum: with the (duplicate-free) touched-scene list
`wideTouchedList` of one million entries, the overlay node `N1` in its
front scene gets `10 + 1000000 * 10 + 5 = 10000015 > 10000000`, so the
drawing edge does not sit strictly above every node z-index. -/
theorem drawing_sentinel_counterexample :
    calculateZIndexesEdge ([] : List Node) (some wideTouchedList) none (some idA) true =
      some 10000000 ∧
    calculateZIndexesNode overlayNodeList idN1 (some wideTouchedList) = 10000015 ∧
    wideTouchedList.Nodup ∧
    (10000000 : Int) < 10000015 := by
  refine ⟨by decide, ?_, ?_, by decide⟩
  · rw [calculateZIndexesNode]
    have hfind : overlayNodeList.find? (fun n => n.id = idN1) =
        some ⟨idN1, some idS, rfEmpty⟩ := by decide
    simp only [hfind, Option.some_bind]
    have hidx : jsFindIndex wideTouchedList
        (some ((⟨idN1, some idS, rfEmpty⟩ : Node).parentId.getD idN1)) = 0 := by
      rw [jsFindIndex, wideTouchedList]
      rw [List.findIdx?_cons]
      norm_num
    rw [hidx]
    have hlen : wideTouchedList.length = 1000000 := by
      rw [wideTouchedList]
      rw [List.length_cons, List.length_map, List.length_range]
    rw [hlen]
    simp [truthyStr, idS]
  · rw [wideTouchedList]
    refine List.nodup_cons.mpr ⟨?_, ?_⟩
    · intro hmem
      obtain ⟨n, _, heq⟩ := List.mem_map.mp hmem
      have hdata : List.replicate n 'a' = idS.data := congrArg String.data heq
      have hlen : n = 1 := by
        have := congrArg List.length hdata
        simpa [idS] using this
      subst hlen
      exact absurd hdata (by decide)
    · refine List.Nodup.map ?_ (List.nodup_range 999999)
      intro m n h
      have hdata : List.replicate m 'a' = List.replicate n 'a' := congrArg String.data h
      simpa using congrArg List.length hdata

/-- C5 amended: an edge being drawn always receives the fixed sentinel
`10000000`, whatever the touched-scene list; the sentinel lies strictly
above every node and completed-edge z-index provided the touched-scene
list has at most 999998 entries (beyond that the recency formula can
exceed it). -/
theorem drawing_sentinel_amended
    (nodes nodes2 : List Node) (id : String) (tsl : List String)
    (touched : Option (List String)) (tgt src tgt2 src2 : Option String)
    (sr sr2 : Bool) (z : Int)
    (hdraw : (sr && !(truthyStr src && truthyStr tgt)) = true)
    (hN : tsl.length ≤ 999998)
    (hz : calculateZIndexesEdge nodes2 (some tsl) tgt2 src2 sr2 = some z)
    (hnd : (sr2 && !(truthyStr src2 && truthyStr tgt2)) = false) :
    calculateZIndexesEdge nodes touched tgt src sr = some 10000000 ∧
    calculateZIndexesNode nodes2 id (some tsl) < 10000000 ∧
    z < 10000000 := by
  refine ⟨?_, zIndexForNode_lt_sentinel nodes2 id tsl hN,
    zIndexForEdge_lt_sentinel nodes2 tsl tgt2 src2 sr2 z hz hnd hN⟩
  rw [calculateZIndexesEdge.eq_def]
  simp only [hdraw, if_true]

/-- C5 witness: a drawn edge from `A` gets the sentinel; with touched
list `[S1]`, node and completed-edge z-indexes (here 25) stay below it. -/
theorem drawing_sentinel_amended_witness :
    calculateZIndexesEdge ([] : List Node) none none (some idA) true = some 10000000 ∧
    calculateZIndexesNode twoSceneEdgeNodes idN1 (some [idS1]) < 10000000 ∧
    (25 : Int) < 10000000 := by
  exact drawing_sentinel_amended ([] : List Node) twoSceneEdgeNodes idN1 [idS1]
    none none (some idA) (some idB) (some idA) true false 25
    (by decide) (by decide) (by decide) (by decide)

/-! ## Claim theorems: edge endpoint resolution -/

/-- If no node carries the edge's source id, the `reduce` finds no
source node. -/
theorem getSourceTargetNodes_source_none (edge : Edge) (nodes : List Node)
    (h : ∀ n ∈ nodes, n.id ≠ edge.source) :
    (getSourceTargetNodes edge nodes).sourceNode = none := by
  rw [getSourceTargetNodes]
  suffices hgen : ∀ init : SourceTargetNode, init.sourceNode = none →
      (nodes.foldl
        (fun res node =>
          let res1 := if node.id = edge.source then { res with sourceNode := some node }
            else res
          if node.id = edge.target then { res1 with targetNode := some node } else res1)
        init).sourceNode = none from
    hgen ⟨none, none⟩ rfl
  induction nodes with
  | nil => intro init hinit; exact hinit
  | cons a t ih =>
    intro init hinit
    rw [List.foldl_cons]
    refine ih (fun n hn => h n (List.mem_cons_of_mem a hn)) _ ?_
    have ha : ¬ (a.id = edge.source) := h a (List.mem_cons_self a t)
    dsimp only
    rw [if_neg ha]
    by_cases hta : a.id = edge.target
    · rw [if_pos hta]
      exact hinit
    · rw [if_neg hta]
      exact hinit

/-- If no node carries the edge's target id, the `reduce` finds no
target node. -/
theorem getSourceTargetNodes_target_none (edge : Edge) (nodes : List Node)
    (h : ∀ n ∈ nodes, n.id ≠ edge.target) :
    (getSourceTargetNodes edge nodes).targetNode = none := by
  rw [getSourceTargetNodes]
  suffices hgen : ∀ init : SourceTargetNode, init.targetNode = none →
      (nodes.foldl
        (fun res node =>
          let res1 := if node.id = edge.source then { res with sourceNode := some node }
            else res
          if node.id = edge.target then { res1 with targetNode := some node } else res1)
        init).targetNode = none from
    hgen ⟨none, none⟩ rfl
  induction nodes with
  | nil => intro init hinit; exact hinit
  | cons a t ih =>
    intro init hinit
    rw [List.foldl_cons]
    refine ih (fun n hn => h n (List.mem_cons_of_mem a hn)) _ ?_
    have ha : ¬ (a.id = edge.target) := h a (List.mem_cons_self a t)
    dsimp only
    rw [if_neg ha]
    by_cases hsa : a.id = edge.source
    · rw [if_pos hsa]
      exact hinit
    · rw [if_neg hsa]
      exact hinit

/-- A resolved source node was taken from the node list. -/
theorem getSourceTargetNodes_source_mem (edge : Edge) (nodes : List Node) (sn : Node)
    (h : (getSourceTargetNodes edge nodes).sourceNode = some sn) : sn ∈ nodes := by
  have hgen : ∀ (l : List Node) (init : SourceTargetNode),
      (l.foldl
        (fun res node =>
          let res1 := if node.id = edge.source then { res with sourceNode := some node }
            else res
          if node.id = edge.target then { res1 with targetNode := some node } else res1)
        init).sourceNode = some sn →
      init.sourceNode = some sn ∨ sn ∈ l := by
    intro l
    induction l with
    | nil => intro init hinit; exact Or.inl hinit
    | cons a t ih =>
      intro init hinit
      rw [List.foldl_cons] at hinit
      rcases ih _ hinit with hc | hc
      · dsimp only at hc
        by_cases hsa : a.id = edge.source
        · rw [if_pos hsa] at hc
          by_cases hta : a.id = edge.target
          · rw [if_pos hta] at hc
            have h2 : some a = some sn := hc
            exact Or.inr ((Option.some_inj.mp h2) ▸ List.mem_cons_self a t)
          · rw [if_neg hta] at hc
            have h2 : some a = some sn := hc
            exact Or.inr ((Option.some_inj.mp h2) ▸ List.mem_cons_self a t)
        · rw [if_neg hsa] at hc
          by_cases hta : a.id = edge.target
          · rw [if_pos hta] at hc
            exact Or.inl hc
          · rw [if_neg hta] at hc
            exact Or.inl hc
      · exact Or.inr (List.mem_cons_of_mem a hc)
  rw [getSourceTargetNodes] at h
  rcases hgen nodes ⟨none, none⟩ h with hc | hc
  · exact absurd hc (by simp)
  · exact hc

/-- A resolved target node was taken from the node list. -/
theorem getSourceTargetNodes_target_mem (edge : Edge) (nodes : List Node) (tn : Node)
    (h : (getSourceTargetNodes edge nodes).targetNode = some tn) : tn ∈ nodes := by
  have hgen : ∀ (l : List Node) (init : SourceTargetNode),
      (l.foldl
        (fun res node =>
          let res1 := if node.id = edge.source then { res with sourceNode := some node }
            else res
          if node.id = edge.target then { res1 with targetNode := some node } else res1)
        init).targetNode = some tn →
      init.targetNode = some tn ∨ tn ∈ l := by
    intro l
    induction l with
    | nil => intro init hinit; exact Or.inl hinit
    | cons a t ih =>
      intro init hinit
      rw [List.foldl_cons] at hinit
      rcases ih _ hinit with hc | hc
      · dsimp only at hc
        by_cases hta : a.id = edge.target
        · rw [if_pos hta] at hc
          have h2 : some a = some tn := hc
          exact Or.inr ((Option.some_inj.mp h2) ▸ List.mem_cons_self a t)
        · rw [if_neg hta] at hc
          by_cases hsa : a.id = edge.source
          · rw [if_pos hsa] at hc
            exact Or.inl hc
          · rw [if_neg hsa] at hc
            exact Or.inl hc
      · exact Or.inr (List.mem_cons_of_mem a hc)
  rw [getSourceTargetNodes] at h
  rcases hgen nodes ⟨none, none⟩ h with hc | hc
  · exact absurd hc (by simp)
  · exact hc

/-- C6: an edge whose source or target id resolves to no node, or whose
endpoint node is not yet initialized (its size is unmeasured — the store
measures width and height together, stated here as an invariant), is not
renderable: `resolveEdgeEndpoints` returns `none` instead of raising. -/
theorem resolveEdgeEndpoints_not_renderable
    (mode : ConnectionMode) (nodes : List Node) (edge : Edge)
    (hinv : ∀ n ∈ nodes, (n.rf.width = none ↔ n.rf.height = none))
    (h : (∀ n ∈ nodes, n.id ≠ edge.source) ∨
         (∀ n ∈ nodes, n.id ≠ edge.target) ∨
         (∃ sn, (getSourceTargetNodes edge nodes).sourceNode = some sn ∧
            (sn.rf.width = none ∨ sn.rf.height = none)) ∨
         (∃ tn, (getSourceTargetNodes edge nodes).targetNode = some tn ∧
            (tn.rf.width = none ∨ tn.rf.height = none))) :
    resolveEdgeEndpoints mode nodes edge = none := by
  rcases h with h | h | ⟨sn, hsn, hwh⟩ | ⟨tn, htn, hwh⟩
  · have hs := getSourceTargetNodes_source_none edge nodes h
    rw [resolveEdgeEndpoints]
    simp only [hs]
  · have ht := getSourceTargetNodes_target_none edge nodes h
    rw [resolveEdgeEndpoints]
    simp only [ht]
    cases (getSourceTargetNodes edge nodes).sourceNode <;> rfl
  · have hw : sn.rf.width = none := by
      rcases hwh with h1 | h2
      · exact h1
      · exact (hinv sn (getSourceTargetNodes_source_mem edge nodes sn hsn)).mpr h2
    rw [resolveEdgeEndpoints]
    simp only [hsn]
    cases htn2 : (getSourceTargetNodes edge nodes).targetNode with
    | none => rfl
    | some tn2 =>
      simp only [hw, truthyNum]
      rfl
  · have hw : tn.rf.width = none := by
      rcases hwh with h1 | h2
      · exact h1
      · exact (hinv tn (getSourceTargetNodes_target_mem edge nodes tn htn)).mpr h2
    rw [resolveEdgeEndpoints]
    simp only [htn]
    cases hsn2 : (getSourceTargetNodes edge nodes).sourceNode with
    | none => rfl
    | some sn2 =>
      simp only [hw, truthyNum]
      simp

/-- C6 witness: `plainEdge` references the deleted source id `A`; with
only `B` present the edge resolves to `none` (the spec's concrete
deleted-node scenario). -/
theorem resolveEdgeEndpoints_not_renderable_witness :
    resolveEdgeEndpoints ConnectionMode.Loose lonelyTargetNodes plainEdge = none := by
  exact resolveEdgeEndpoints_not_renderable ConnectionMode.Loose lonelyTargetNodes plainEdge
    (by decide) (Or.inl (by decide))

/-- C7 counterexample: node `A` declares exactly one source handle
(`h1`) while the edge names the nonexistent source handle `h2`; because
`getHandle` short-circuits on single-element bounds (`bounds.length === 1`
is checked before the id), the edge still resolves instead of returning
NOT_RENDERABLE. -/
theorem getHandle_named_miss_counterexample :
    [handleH1].find? (fun d => d.id = some idH2) = none ∧
    (resolveEdgeEndpoints ConnectionMode.Loose oneHandleNodes namedMissEdge).isSome = true := by
  constructor
  · decide
  · decide

/-- C7 amended: a named port id that is not found makes the edge
not renderable only when the endpoint declares a number of ports other
than one; a node with exactly one declared port always resolves to that
port regardless of any named id, and with no id named the first declared
port is used (`none` only when the list is empty). -/
theorem getHandle_resolution_amended
    (mode : ConnectionMode) (nodes : List Node) (edge : Edge) (sn tn : Node)
    (bs : List HandleElement) (hid : String)
    (hsrc : (getSourceTargetNodes edge nodes).sourceNode = some sn)
    (htgt : (getSourceTargetNodes edge nodes).targetNode = some tn)
    (hws : truthyNum sn.rf.width = true) (hwt : truthyNum tn.rf.width = true)
    (hbs : sn.rf.handleBounds.source = some bs)
    (hlen : bs.length ≠ 1)
    (hname : strOrNull edge.sourceHandle = some hid)
    (hmiss : bs.find? (fun d => d.id = some hid) = none) :
    resolveEdgeEndpoints mode nodes edge = none ∧
    (∀ (h : HandleElement) (anyId : Option String), getHandle (some [h]) anyId = some h) ∧
    (∀ bs2 : List HandleElement, getHandle (some bs2) none = bs2.head?) := by
  refine ⟨?_, ?_, ?_⟩
  · have hhid : hid ≠ "" := by
      intro hc
      subst hc
      rcases hedge : edge.sourceHandle with _ | s
      · rw [hedge] at hname
        simp [strOrNull] at hname
      · rw [hedge] at hname
        simp only [strOrNull] at hname
        by_cases hs : s = ""
        · rw [if_pos hs] at hname
          exact absurd hname (by simp)
        · rw [if_neg hs] at hname
          exact hs (Option.some_inj.mp hname)
    have hgh : getHandle sn.rf.handleBounds.source (strOrNull edge.sourceHandle) = none := by
      rw [hbs, hname, getHandle]
      have hcond : ¬ (bs.length = 1 ∨ truthyStr (some hid) = false) := by
        rintro (hc | hc)
        · exact hlen hc
        · rw [truthyStr] at hc
          simp only [decide_eq_false_iff_not, Decidable.not_not] at hc
          exact hhid hc
      rw [if_neg hcond]
      exact hmiss
    rw [resolveEdgeEndpoints]
    simp [hsrc, htgt, hws, hwt, hgh]
  · intro h anyId
    simp [getHandle]
  · intro bs2
    simp [getHandle, truthyStr]

/-- C7 witness: node `A` declares two source handles (`h1`, `h3`),
neither named `h2`, so the edge naming `h2` is not renderable; a sole
declared handle is returned even for a mismatched id, and with no id the
first handle is returned. -/
theorem getHandle_resolution_amended_witness :
    resolveEdgeEndpoints ConnectionMode.Loose twoHandleNodes namedMissEdge = none ∧
    getHandle (some [handleH1]) (some idH2) = some handleH1 ∧
    getHandle (some [handleH1, handleH3]) none = [handleH1, handleH3].head? := by
  have h := getHandle_resolution_amended ConnectionMode.Loose twoHandleNodes namedMissEdge
    ⟨idA, none, ⟨⟨0, 0⟩, some 10, some 10, ⟨some [handleH1, handleH3], none⟩⟩⟩
    ⟨idB, none, ⟨⟨50, 50⟩, some 10, some 10, ⟨none, some [handleT1]⟩⟩⟩
    [handleH1, handleH3] idH2
    (by decide) (by decide) (by decide) (by decide) (by decide) (by decide)
    (by decide) (by decide)
  exact ⟨h.1, h.2.1 handleH1 (some idH2), h.2.2 [handleH1, handleH3]⟩

/-- C10: when the target node declares no target-type handles, candidate
target handles depend on the connection mode: in `Strict` mode only the
(absent) target handles are searched and the edge is not renderable,
while in `Loose` mode the source-type handles are used as a fallback and
the edge resolves whenever both handles do. -/
theorem targetHandles_connectionMode
    (nodes : List Node) (edge : Edge) (sn tn : Node)
    (hsrc : (getSourceTargetNodes edge nodes).sourceNode = some sn)
    (htgt : (getSourceTargetNodes edge nodes).targetNode = some tn)
    (hws : truthyNum sn.rf.width = true) (hwt : truthyNum tn.rf.width = true)
    (hnone : tn.rf.handleBounds.target = none) :
    resolveEdgeEndpoints ConnectionMode.Strict nodes edge = none ∧
    (∀ bs sh th, tn.rf.handleBounds.source = some bs →
      getHandle sn.rf.handleBounds.source (strOrNull edge.sourceHandle) = some sh →
      getHandle (some bs) (strOrNull edge.targetHandle) = some th →
      (resolveEdgeEndpoints ConnectionMode.Loose nodes edge).isSome = true) := by
  constructor
  · rw [resolveEdgeEndpoints]
    have hgh : getHandle none (strOrNull edge.targetHandle) = none := rfl
    simp [hsrc, htgt, hws, hwt, hnone, hgh]
    cases getHandle sn.rf.handleBounds.source (strOrNull edge.sourceHandle) <;> simp
  · intro bs sh th hbs hsh hth
    rw [resolveEdgeEndpoints]
    have hor : jsOrOpt (none : Option (List HandleElement)) (some bs) = some bs := rfl
    simp [hsrc, htgt, hnone, hws, hwt, hbs, hor, hsh, hth]

/-- C10 witness: target `B` declares only source handles; the plain edge
is not renderable in `Strict` mode and renderable in `Loose` mode. -/
theorem targetHandles_connectionMode_witness :
    resolveEdgeEndpoints ConnectionMode.Strict sourceOnlyNodes plainEdge = none ∧
    (resolveEdgeEndpoints ConnectionMode.Loose sourceOnlyNodes plainEdge).isSome = true := by
  have h := targetHandles_connectionMode sourceOnlyNodes plainEdge
    ⟨idA, none, ⟨⟨0, 0⟩, some 10, some 10, ⟨some [handleH1], none⟩⟩⟩
    ⟨idB, none, ⟨⟨50, 50⟩, some 10, some 10, ⟨some [handleT1], none⟩⟩⟩
    (by decide) (by decide) (by decide) (by decide) (by decide)
  exact ⟨h.1, h.2 [handleT1] handleH1 handleT1 (by decide) (by decide) (by decide)⟩

end ReactFlow
